import Mathlib

/-!
Shallow embedding of the DAQmx acquisition applications in `PyDAQmx2/`
(`psydaqgd.py`, `pysideaoai.py`, `Dashboard.py`) together with proofs about
the acquisition loop, the CSV file sink, the SQLite sink and the
Google-Drive upload step.

Numeric sample values are modelled as rationals (for the logging claims) or
reals (for the sine-table claim); Python floats are abstracted to exact
arithmetic, and the tie behaviour of decimal rounding is modelled as
round-half-up.
-/

set_option maxRecDepth 20000

namespace DAQ

/-! ## Decimal rendering and parsing

Models `numpy.savetxt(..., fmt="%.3f")` (fixed three-decimal formatting used
by `save_data_to_file`) and the numeric re-parsing performed when the
dashboard (`Dashboard.py`, `pd.read_csv`) reads such a file back. -/

/-- One decimal digit rendered as a character (0 ↦ the character 0, …),
as Python renders digits. -/
def digitChar (d : Nat) : Char := Char.ofNat (48 + d)

/-- Big-endian character rendering of a natural number, as Python renders
a nonnegative integer. -/
def renderNat (n : Nat) : List Char :=
  if n = 0 then ['0'] else ((Nat.digits 10 n).reverse).map digitChar

/-- The milli part of a three-decimal fixed-point number, padded with leading
zeros to exactly three digits. -/
def pad3 (n : Nat) : List Char :=
  List.replicate (3 - (renderNat n).length) '0' ++ renderNat n

/-- Rounding a value to three decimals: the numeric value that the format
string prints, and that the database sink stores via round(x, 3). -/
def roundTo3 (q : ℚ) : ℚ := (round (q * 1000) : ℚ) / 1000

/-- Character stream of the fixed three-decimal rendering of a rational:
optional minus sign, integer digits, a dot, exactly three fraction digits. -/
def fmt3Chars (q : ℚ) : List Char :=
  let n : Int := round (q * 1000)
  let body := renderNat (n.natAbs / 1000) ++ '.' :: pad3 (n.natAbs % 1000)
  if n < 0 then '-' :: body else body

/-- String form of the fixed three-decimal rendering. -/
def fmt3 (q : ℚ) : String := String.mk (fmt3Chars q)

/-- Decimal digit test on characters. -/
def isDigitCh (c : Char) : Bool := decide (48 ≤ c.toNat) && decide (c.toNat ≤ 57)

/-- Numeric value of a digit character. -/
def digitVal (c : Char) : Nat := c.toNat - 48

/-- Parse a nonempty all-digit character list as a natural number
(big-endian), as a CSV reader parses an unsigned integer field. -/
def parseDigits (cs : List Char) : Option Nat :=
  if cs = [] then none
  else if cs.all isDigitCh then
    some (cs.foldl (fun a c => 10 * a + digitVal c) 0)
  else none

/-- Parse an unsigned decimal numeral, with an optional fraction part
separated by a dot, as the dashboard CSV reader parses a cell. -/
def parseUnsigned (cs : List Char) : Option ℚ :=
  let ip := cs.takeWhile (fun c => !(c == '.'))
  match cs.dropWhile (fun c => !(c == '.')) with
  | [] => (parseDigits ip).map (fun i => (i : ℚ))
  | _ :: frac =>
    match parseDigits ip, parseDigits frac with
    | some i, some f => some ((i : ℚ) + (f : ℚ) / 10 ^ frac.length)
    | _, _ => none

/-- Parse a signed decimal numeral. -/
def parseFixed (cs : List Char) : Option ℚ :=
  match cs with
  | [] => none
  | c :: rest => if c = '-' then (parseUnsigned rest).map (fun q => -q)
                 else parseUnsigned (c :: rest)

lemma digitVal_digitChar {d : Nat} (h : d < 10) : digitVal (digitChar d) = d := by
  interval_cases d <;> rfl

lemma isDigitCh_digitChar {d : Nat} (h : d < 10) : isDigitCh (digitChar d) = true := by
  interval_cases d <;> rfl

lemma renderNat_ne_nil (n : Nat) : renderNat n ≠ [] := by
  unfold renderNat
  split
  · simp
  · simp_all [List.map_eq_nil_iff, Nat.digits_ne_nil_iff_ne_zero]

lemma mem_renderNat_isDigit {n : Nat} {c : Char} (h : c ∈ renderNat n) :
    isDigitCh c = true := by
  unfold renderNat at h
  split at h
  · simp only [List.mem_singleton] at h
    subst h
    rfl
  · rcases List.mem_map.mp h with ⟨d, hd, rfl⟩
    exact isDigitCh_digitChar
      (Nat.digits_lt_base (by norm_num) (List.mem_reverse.mp hd))

lemma foldl_map_digitChar (ds : List Nat) (hds : ∀ d ∈ ds, d < 10) (a : Nat) :
    (ds.map digitChar).foldl (fun a c => 10 * a + digitVal c) a =
      ds.foldl (fun a d => 10 * a + d) a := by
  induction ds generalizing a with
  | nil => rfl
  | cons d ds ih =>
    simp only [List.map_cons, List.foldl_cons]
    rw [digitVal_digitChar (hds d (by simp))]
    exact ih (fun x hx => hds x (by simp [hx])) _

lemma foldl_horner_reverse (L : List Nat) :
    L.reverse.foldl (fun a d => 10 * a + d) 0 = Nat.ofDigits 10 L := by
  rw [List.foldl_reverse]
  induction L with
  | nil => rfl
  | cons d L ih =>
    simp only [List.foldr_cons, Nat.ofDigits_cons, ih]
    ring

lemma val_renderNat (n : Nat) :
    (renderNat n).foldl (fun a c => 10 * a + digitVal c) 0 = n := by
  unfold renderNat
  split
  · simp_all
    rfl
  · rw [foldl_map_digitChar _
      (fun d hd => Nat.digits_lt_base (by norm_num) (List.mem_reverse.mp hd))]
    rw [foldl_horner_reverse, Nat.ofDigits_digits]

lemma parseDigits_renderNat (n : Nat) : parseDigits (renderNat n) = some n := by
  unfold parseDigits
  rw [if_neg (renderNat_ne_nil n),
    if_pos (List.all_eq_true.mpr (fun c hc => mem_renderNat_isDigit hc)),
    val_renderNat]

lemma foldl_replicate_zeros (k : Nat) :
    (List.replicate k '0').foldl (fun a c => 10 * a + digitVal c) 0 = 0 := by
  induction k with
  | zero => rfl
  | succ k ih => simpa [List.replicate_succ] using ih

lemma parseDigits_pad3 (n : Nat) : parseDigits (pad3 n) = some n := by
  unfold parseDigits pad3
  rw [if_neg (by simp [renderNat_ne_nil n])]
  rw [if_pos]
  · rw [List.foldl_append, foldl_replicate_zeros, val_renderNat]
  · refine List.all_eq_true.mpr (fun c hc => ?_)
    rcases List.mem_append.mp hc with h | h
    · rw [List.eq_of_mem_replicate h]
      rfl
    · exact mem_renderNat_isDigit h

lemma renderNat_length_le {n k : Nat} (hk : 0 < k) (h : n < 10 ^ k) :
    (renderNat n).length ≤ k := by
  unfold renderNat
  split
  · simpa using hk
  · rw [List.length_map, List.length_reverse,
      Nat.digits_len 10 n (by norm_num) (by assumption)]
    have := Nat.log_lt_of_lt_pow (by assumption) h
    omega

lemma pad3_length {n : Nat} (h : n < 1000) : (pad3 n).length = 3 := by
  have hl : (renderNat n).length ≤ 3 :=
    renderNat_length_le (by norm_num) (by norm_num at h ⊢; omega)
  simp [pad3]
  omega

/-- Characters are not the dot separator. -/
def notDot (c : Char) : Bool := !(c == '.')

lemma notDot_of_isDigit {c : Char} (h : isDigitCh c = true) : notDot c = true := by
  by_cases hc : c = '.'
  · subst hc
    exact absurd h (by decide)
  · simp [notDot, hc]

lemma takeWhile_notDot (xs ys : List Char) (h : ∀ c ∈ xs, notDot c = true) :
    (xs ++ '.' :: ys).takeWhile notDot = xs := by
  induction xs with
  | nil => simp [List.takeWhile, notDot]
  | cons c cs ih =>
    have hx := ih (fun x hx => h x (by simp [hx]))
    simp [List.takeWhile_cons, h c (by simp), hx]

lemma dropWhile_notDot (xs ys : List Char) (h : ∀ c ∈ xs, notDot c = true) :
    (xs ++ '.' :: ys).dropWhile notDot = '.' :: ys := by
  induction xs with
  | nil => simp [List.dropWhile, notDot]
  | cons c cs ih =>
    have hx := ih (fun x hx => h x (by simp [hx]))
    simp [List.dropWhile_cons, h c (by simp), hx]

lemma parseUnsigned_body (m : Nat) :
    parseUnsigned (renderNat (m / 1000) ++ '.' :: pad3 (m % 1000)) =
      some ((m : ℚ) / 1000) := by
  have hdig : ∀ c ∈ renderNat (m / 1000), notDot c = true :=
    fun c hc => notDot_of_isDigit (mem_renderNat_isDigit hc)
  unfold parseUnsigned
  simp only [show (fun c => !(c == '.')) = notDot from rfl]
  rw [takeWhile_notDot _ _ hdig, dropWhile_notDot _ _ hdig]
  simp only [parseDigits_renderNat, parseDigits_pad3,
    pad3_length (Nat.mod_lt m (by norm_num))]
  have hq : ((m / 1000 : Nat) : ℚ) * 1000 + ((m % 1000 : Nat) : ℚ) = (m : ℚ) := by
    exact_mod_cast Nat.div_add_mod' m 1000
  have h3 : ((10 : ℚ)) ^ 3 = 1000 := by norm_num
  rw [h3]
  congr 1
  field_simp
  linarith [hq]

lemma renderNat_head_digit (n : Nat) :
    ∃ c cs, renderNat n = c :: cs ∧ isDigitCh c = true := by
  rcases hr : renderNat n with _ | ⟨c, cs⟩
  · exact absurd hr (renderNat_ne_nil n)
  · exact ⟨c, cs, rfl, mem_renderNat_isDigit (by rw [hr]; simp)⟩

lemma parseFixed_cons (c : Char) (rest : List Char) :
    parseFixed (c :: rest) =
      if c = '-' then (parseUnsigned rest).map (fun q => -q)
      else parseUnsigned (c :: rest) := rfl

/-- Round-trip of the three-decimal formatter through the decimal parser:
re-reading a formatted value yields exactly the original rounded to three
decimals. -/
lemma parseFixed_fmt3Chars (q : ℚ) :
    parseFixed (fmt3Chars q) = some (roundTo3 q) := by
  unfold fmt3Chars roundTo3
  set n : Int := round (q * 1000) with hn
  obtain ⟨c, cs, hr, hc⟩ := renderNat_head_digit (n.natAbs / 1000)
  have hcne : ¬ c = '-' := by
    intro h
    subst h
    simp [isDigitCh] at hc
  by_cases hneg : n < 0
  · rw [if_pos hneg, parseFixed_cons, if_pos rfl, parseUnsigned_body,
      Option.map_some']
    have habs : ((n.natAbs : ℚ)) = -(n : ℚ) := by
      rw [Int.cast_natAbs, abs_of_neg hneg]
      push_cast
      ring
    rw [habs, neg_div, neg_neg]
  · rw [if_neg hneg, hr, List.cons_append, parseFixed_cons, if_neg hcne,
      ← List.cons_append, ← hr, parseUnsigned_body]
    have habs : ((n.natAbs : ℚ)) = (n : ℚ) := by
      rw [Int.cast_natAbs, abs_of_nonneg (not_lt.mp hneg)]
    rw [habs]

/-! ## CSV lines and comma splitting -/

lemma mem_pad3_isDigit {n : Nat} {c : Char} (h : c ∈ pad3 n) :
    isDigitCh c = true := by
  rcases List.mem_append.mp h with h | h
  · rw [List.eq_of_mem_replicate h]
    rfl
  · exact mem_renderNat_isDigit h

/-- No comma ever occurs in a formatted three-decimal cell. -/
lemma fmt3Chars_no_comma {q : ℚ} {c : Char} (h : c ∈ fmt3Chars q) :
    ¬ c = ',' := by
  intro hc
  subst hc
  unfold fmt3Chars at h
  dsimp only at h
  have hbody : ∀ x ∈ renderNat ((round (q * 1000)).natAbs / 1000) ++
      '.' :: pad3 ((round (q * 1000)).natAbs % 1000), ¬ x = ',' := by
    intro x hx
    rcases List.mem_append.mp hx with hx | hx
    · intro he
      subst he
      exact absurd (mem_renderNat_isDigit hx) (by decide)
    · rcases hx with _ | ⟨_, hx⟩
      · decide
      · intro he
        subst he
        exact absurd (mem_pad3_isDigit hx) (by decide)
  split at h
  · rcases List.mem_cons.mp h with h | h
    · exact absurd h (by decide)
    · exact hbody _ h rfl
  · exact hbody _ h rfl

/-- Split a character stream at commas, as a CSV reader tokenises one line. -/
def splitCommaAux : List Char → List Char → List (List Char)
  | [], acc => [acc.reverse]
  | c :: cs, acc =>
    if c = ',' then acc.reverse :: splitCommaAux cs []
    else splitCommaAux cs (c :: acc)

/-- Split one CSV line into its cells. -/
def splitComma (cs : List Char) : List (List Char) := splitCommaAux cs []

lemma splitCommaAux_no_comma (xs : List Char) (h : ∀ c ∈ xs, ¬ c = ',') :
    ∀ acc, splitCommaAux xs acc = [acc.reverse ++ xs] := by
  induction xs with
  | nil => intro acc; simp [splitCommaAux]
  | cons c cs ih =>
    intro acc
    rw [splitCommaAux, if_neg (h c (by simp)), ih (fun x hx => h x (by simp [hx]))]
    simp

lemma splitCommaAux_append (xs ys : List Char) (h : ∀ c ∈ xs, ¬ c = ',') :
    ∀ acc, splitCommaAux (xs ++ ',' :: ys) acc =
      (acc.reverse ++ xs) :: splitCommaAux ys [] := by
  induction xs with
  | nil => intro acc; simp [splitCommaAux]
  | cons c cs ih =>
    intro acc
    rw [List.cons_append, splitCommaAux, if_neg (h c (by simp)),
      ih (fun x hx => h x (by simp [hx]))]
    simp

/-- One data line of the CSV sink: three cells formatted with the fixed
three-decimal format and joined by commas, as `np.savetxt` emits one row of
`np.column_stack((self.deltat, self.aout, self.ain))`. -/
def csvRow {V : Type} (fmt : V → String) (t : ℚ) (o i : V) : String :=
  String.mk (fmt3Chars t ++ ',' :: ((fmt o).data ++ ',' :: (fmt i).data))

/-- Combine the three per-run series into rows, as `np.column_stack` pairs
them index by index. -/
def zip3 {α β γ : Type} : List α → List β → List γ → List (α × β × γ)
  | a :: as, b :: bs, c :: cs => (a, b, c) :: zip3 as bs cs
  | _, _, _ => []

/-- All data lines of the CSV sink for the three in-memory series. -/
def csvRows {V : Type} (fmt : V → String) (ts : List ℚ) (os is : List V) :
    List String :=
  (zip3 ts os is).map (fun x => csvRow fmt x.1 x.2.1 x.2.2)

/-- The single header line `np.savetxt` writes (with `comments=""`). -/
def csvHeader : String := "Time (s), AO (V), AI (V)"

lemma splitComma_csvRow (t o i : ℚ) :
    splitComma (csvRow fmt3 t o i).data =
      [fmt3Chars t, fmt3Chars o, fmt3Chars i] := by
  show splitCommaAux (fmt3Chars t ++ ',' :: (fmt3Chars o ++ ',' :: fmt3Chars i)) [] = _
  rw [splitCommaAux_append _ _ (fun c hc => fmt3Chars_no_comma hc),
    splitCommaAux_append _ _ (fun c hc => fmt3Chars_no_comma hc),
    splitCommaAux_no_comma _ (fun c hc => fmt3Chars_no_comma hc)]
  simp

lemma zip3_length_le {α β γ : Type} :
    ∀ (as : List α) (bs : List β) (cs : List γ),
      (zip3 as bs cs).length ≤ as.length
  | [], _, _ => by simp [zip3]
  | _ :: _, [], _ => by simp [zip3]
  | _ :: _, _ :: _, [] => by simp [zip3]
  | a :: as, b :: bs, c :: cs => by
    simpa [zip3] using zip3_length_le as bs cs

lemma zip3_length_eq {α β γ : Type} :
    ∀ (as : List α) (bs : List β) (cs : List γ),
      as.length = bs.length → bs.length = cs.length →
      (zip3 as bs cs).length = as.length
  | [], [], [], _, _ => rfl
  | a :: as, b :: bs, c :: cs, h1, h2 => by
    simpa [zip3] using zip3_length_eq as bs cs (by simpa using h1) (by simpa using h2)

/-! ## SQLite sink model

Models `save_data_to_database`: the `acquisition_data` table with columns
`id INTEGER PRIMARY KEY AUTOINCREMENT, timestamp TEXT, time REAL,
ao_voltage REAL, ai_voltage REAL` is modelled by `DBRow`; `AUTOINCREMENT`
is modelled by the `nextId` counter of `DBState`; an absent database file
or table is modelled by `none`. -/

/-- One row of the `acquisition_data` table. -/
structure DBRow (V : Type) where
  id : Nat
  timestamp : String
  time : ℚ
  ao_voltage : V
  ai_voltage : V
  deriving DecidableEq

/-- The `acquisition_data` table: its rows plus the auto-increment counter. -/
structure DBState (V : Type) where
  nextId : Nat
  rows : List (DBRow V)
  deriving DecidableEq

/-- CREATE TABLE IF NOT EXISTS: keep an existing table, create a fresh empty
one (ids starting from 1) when absent. -/
def dbEnsure {V : Type} (d : Option (DBState V)) : DBState V :=
  d.getD ⟨1, []⟩

/-- The INSERT loop of `save_data_to_database`: one row per sample triple
(elapsed time, AO value, AI value), each value rounded to three decimals,
id assigned by the auto-increment counter. -/
def dbInsertAll {V : Type} (stamp : String) (rnd : V → V) :
    DBState V → List (ℚ × V × V) → DBState V
  | st, [] => st
  | st, (t, o, i) :: rest =>
    dbInsertAll stamp rnd
      ⟨st.nextId + 1,
        st.rows ++ [⟨st.nextId, stamp, roundTo3 t, rnd o, rnd i⟩]⟩ rest

/-- Closed form of the rows appended by `dbInsertAll`. -/
def dbNewRows {V : Type} (stamp : String) (rnd : V → V) :
    Nat → List (ℚ × V × V) → List (DBRow V)
  | _, [] => []
  | n, (t, o, i) :: rest =>
    ⟨n, stamp, roundTo3 t, rnd o, rnd i⟩ :: dbNewRows stamp rnd (n + 1) rest

lemma dbInsertAll_rows {V : Type} (stamp : String) (rnd : V → V) :
    ∀ (xs : List (ℚ × V × V)) (st : DBState V),
      (dbInsertAll stamp rnd st xs).rows =
        st.rows ++ dbNewRows stamp rnd st.nextId xs
  | [], st => by simp [dbInsertAll, dbNewRows]
  | (t, o, i) :: rest, st => by
    rw [dbInsertAll, dbInsertAll_rows stamp rnd rest, dbNewRows]
    simp

lemma dbInsertAll_nextId {V : Type} (stamp : String) (rnd : V → V) :
    ∀ (xs : List (ℚ × V × V)) (st : DBState V),
      (dbInsertAll stamp rnd st xs).nextId = st.nextId + xs.length
  | [], st => by simp [dbInsertAll]
  | (t, o, i) :: rest, st => by
    rw [dbInsertAll, dbInsertAll_nextId stamp rnd rest]
    simp
    omega

lemma dbNewRows_length {V : Type} (stamp : String) (rnd : V → V) :
    ∀ (n : Nat) (xs : List (ℚ × V × V)),
      (dbNewRows stamp rnd n xs).length = xs.length
  | _, [] => rfl
  | n, (t, o, i) :: rest => by
    rw [dbNewRows]
    simpa using dbNewRows_length stamp rnd (n + 1) rest

/-! ## The acquisition machine of `psydaqgd.py`

State of `DAQApp` restricted to the fields the acquisition loop touches,
plus an explicit event trace.  The driver (NI-DAQmx), the wall clock
(`time.time`), the timestamps (`datetime.now`) and the Google-Drive client
are modelled by the oracle `Env`: `writeOk t` / `readOk t` tell whether
`WriteAnalogF64` / `ReadAnalogF64` raise on tick `t`, `readVal t` is the
voltage read, `clock t` the elapsed time, and `upPngOk` / `upCsvOk`
whether the two `gd` uploads succeed. -/

/-- Observable actions of one run. -/
inductive Event (V : Type) where
  | writeAO (v : V)
  | readAI (v : V)
  | writeFailed
  | readFailed
  | timerStart
  | timerStop
  | stopTaskAO
  | clearTaskAO
  | stopTaskAI
  | clearTaskAI
  | fileOut (name : String)
  | uploadTry (name : String)
  | uploadDone (name : String)
  | errRaised
  deriving DecidableEq

/-- Oracle for everything outside the application code. -/
structure Env (V : Type) where
  aopoints : Nat → V
  writeOk : Nat → Bool
  readOk : Nat → Bool
  readVal : Nat → V
  clock : Nat → ℚ
  upPngOk : Bool
  upCsvOk : Bool
  csvStamp : String
  pngStamp : String
  dbStamp : String

/-- The mutable fields of `DAQApp` used by the acquisition loop. -/
structure AppState (V : Type) where
  timerActive : Bool
  errored : Bool
  iteration : Nat
  loop_count : Nat
  current_index : Nat
  deltat : List ℚ
  aout : List V
  ain : List V
  aoTaskBound : Bool
  aiTaskBound : Bool
  deriving DecidableEq

/-- Application state plus the filesystem (CSV files written by the file
sink), the SQLite database and the event trace. -/
structure World (V : Type) where
  app : AppState V
  files : List (String × List String)
  db : Option (DBState V)
  events : List (Event V)
  deriving DecidableEq

/-- Name of the CSV file of one run (`f"PyDAQmx2/testdata/data_{timestamp}.csv"`). -/
def csvFileName {V : Type} (env : Env V) : String :=
  "PyDAQmx2/testdata/data_" ++ env.csvStamp ++ ".csv"

/-- Name of the PNG plot file of one run. -/
def pngFileName {V : Type} (env : Env V) : String :=
  "PyDAQmx2/testdata/plot_" ++ env.pngStamp ++ ".png"

/-- `save_data_to_database`: ensure the table exists, then insert one row
per sample with values rounded to three decimals. -/
def save_data_to_database {V : Type} (stamp : String) (rnd : V → V)
    (w : World V) (xs : List (ℚ × V × V)) : World V :=
  { w with db := some (dbInsertAll stamp rnd (dbEnsure w.db) xs) }

/-- `save_data_to_file`: write the CSV file (header plus one three-decimal
row per sample), then archive to the database; returns the filename. -/
def save_data_to_file {V : Type} (env : Env V) (fmt : V → String) (rnd : V → V)
    (w : World V) : World V × String :=
  let fn := csvFileName env
  let lines := csvHeader :: csvRows fmt w.app.deltat w.app.aout w.app.ain
  let w1 : World V :=
    { w with files := w.files ++ [(fn, lines)],
             events := w.events ++ [Event.fileOut fn] }
  (save_data_to_database env.dbStamp rnd w1
      (zip3 w.app.deltat w.app.aout w.app.ain), fn)

/-- `gd`: upload one file to the Drive folder; on failure the exception is
logged and re-raised, which marks the run as errored.  The upload never
touches the local filesystem or database. -/
def gd {V : Type} (ok : Bool) (fn : String) (w : World V) : World V :=
  if ok then
    { w with events := w.events ++ [Event.uploadTry fn, Event.uploadDone fn] }
  else
    { w with app := { w.app with errored := true },
             events := w.events ++ [Event.uploadTry fn, Event.errRaised] }

/-- `save_plot_as_png`: export the plot image, then upload it via `gd`. -/
def save_plot_as_png {V : Type} (env : Env V) (w : World V) : World V :=
  gd env.upPngOk (pngFileName env)
    { w with events := w.events ++ [Event.fileOut (pngFileName env)] }

/-- The completion branch of `perform_iteration` (reached once
`iteration >= loop_count`): save the CSV and database, export and upload
the plot, then upload the CSV; an upload failure aborts the following
steps (the exception propagates to the handler, which re-raises). -/
def completionSteps {V : Type} (env : Env V) (fmt : V → String) (rnd : V → V)
    (w : World V) : World V :=
  let p := save_data_to_file env fmt rnd w
  let w2 := save_plot_as_png env p.1
  if w2.app.errored then w2 else gd env.upCsvOk p.2 w2

/-- The index reset `if self.current_index >= len(self.aopoints):
self.current_index = 0` (the table has 100 points). -/
def effIdx (ci : Nat) : Nat := if 100 ≤ ci then 0 else ci

/-- One invocation of `perform_iteration`, the QTimer callback: either the
completion branch, or one write/read tick; a driver failure stops the
timer, marks the run errored and re-raises (no task stop/clear occurs in
this handler). -/
def perform_iteration {V : Type} (env : Env V) (fmt : V → String) (rnd : V → V)
    (w : World V) : World V :=
  let a := w.app
  if a.loop_count ≤ a.iteration then
    completionSteps env fmt rnd
      { w with app := { a with timerActive := false },
               events := w.events ++ [Event.timerStop] }
  else
    let ci := effIdx a.current_index
    let v := env.aopoints ci
    if env.writeOk a.iteration then
      if env.readOk a.iteration then
        { w with
          app := { a with
            current_index := ci + 1,
            iteration := a.iteration + 1,
            deltat := a.deltat ++ [env.clock a.iteration],
            aout := a.aout ++ [v],
            ain := a.ain ++ [env.readVal a.iteration] },
          events := w.events ++
            [Event.writeAO v, Event.readAI (env.readVal a.iteration)] }
      else
        { w with
          app := { a with current_index := ci, aout := a.aout ++ [v],
                          timerActive := false, errored := true },
          events := w.events ++
            [Event.writeAO v, Event.readFailed, Event.timerStop,
              Event.errRaised] }
    else
      { w with
        app := { a with current_index := ci, aout := a.aout ++ [v],
                        timerActive := false, errored := true },
        events := w.events ++
          [Event.writeFailed, Event.timerStop, Event.errRaised] }

/-- The QTimer driving `perform_iteration`: as long as the timer is active,
each unit of fuel fires the callback once. -/
def runTimer {V : Type} (env : Env V) (fmt : V → String) (rnd : V → V) :
    Nat → World V → World V
  | 0, w => w
  | fuel + 1, w =>
    if w.app.timerActive then
      runTimer env fmt rnd fuel (perform_iteration env fmt rnd w)
    else w

/-- `start_acquisition` followed by `run_acquisition`: stop and clear any
existing tasks, validate the loop count (a non-positive count raises
before new tasks are created), create and start fresh AO/AI tasks, reset
the three data series and the indices, and start the timer. -/
def start_acquisition {V : Type} (N : Nat) (w : World V) : World V :=
  let evA : List (Event V) :=
    if w.app.aoTaskBound then [Event.stopTaskAO, Event.clearTaskAO] else []
  let evI : List (Event V) :=
    if w.app.aiTaskBound then [Event.stopTaskAI, Event.clearTaskAI] else []
  let w1 : World V :=
    { w with app := { w.app with aoTaskBound := false, aiTaskBound := false },
             events := w.events ++ (evA ++ evI) }
  if N = 0 then
    { w1 with app := { w1.app with errored := true },
              events := w1.events ++ [Event.errRaised] }
  else
    { w1 with
      app := { w1.app with
        aoTaskBound := true, aiTaskBound := true,
        current_index := 0, deltat := [], ain := [], aout := [],
        loop_count := N, iteration := 0,
        timerActive := true, errored := false },
      events := w1.events ++ [Event.timerStart] }

/-- The world of a freshly constructed `DAQApp`. -/
def initWorld (V : Type) : World V :=
  { app := { timerActive := false, errored := false, iteration := 0,
             loop_count := 0, current_index := 0, deltat := [], aout := [],
             ain := [], aoTaskBound := false, aiTaskBound := false },
    files := [], db := none, events := [] }

/-- A full finite-mode run: press Start with loop count `N`, then let the
timer fire `fuel` times. -/
def runFinite {V : Type} (env : Env V) (fmt : V → String) (rnd : V → V)
    (N fuel : Nat) : World V :=
  runTimer env fmt rnd fuel (start_acquisition N (initWorld V))

/-! ## The continuous-mode machine of `pysideaoai.py`

Same tick body (`update_plot`), but no iteration counter and no completion
branch: the run terminates only when `stop_acquisition` is called (Stop
button).  `stop_acquisition` stops the timer, stops and clears both tasks,
and saves the CSV file (no database, no upload, files under
`testdata/`). -/

/-- The mutable fields of the continuous-mode `DAQApp`. -/
structure CApp (V : Type) where
  acquiring : Bool
  timerActive : Bool
  current_index : Nat
  deltat : List ℚ
  aout : List V
  ain : List V
  aoTaskBound : Bool
  aiTaskBound : Bool
  deriving DecidableEq

/-- Continuous-mode world: application state, files, event trace. -/
structure CWorld (V : Type) where
  app : CApp V
  files : List (String × List String)
  events : List (Event V)
  deriving DecidableEq

/-- One invocation of `update_plot` on tick `t`: write the next sine-table
point, then read one input sample, then append to the series.  There is no
try/except here; a driver failure leaves the Qt timer running. -/
def update_plot {V : Type} (env : Env V) (t : Nat) (w : CWorld V) : CWorld V :=
  let a := w.app
  let ci := effIdx a.current_index
  let v := env.aopoints ci
  if env.writeOk t then
    if env.readOk t then
      { w with
        app := { a with
          current_index := ci + 1,
          deltat := a.deltat ++ [env.clock t],
          aout := a.aout ++ [v],
          ain := a.ain ++ [env.readVal t] },
        events := w.events ++
          [Event.writeAO v, Event.readAI (env.readVal t)] }
    else
      { w with app := { a with current_index := ci, aout := a.aout ++ [v] },
               events := w.events ++
                 [Event.writeAO v, Event.readFailed, Event.errRaised] }
  else
    { w with app := { a with current_index := ci, aout := a.aout ++ [v] },
             events := w.events ++ [Event.writeFailed, Event.errRaised] }

/-- `k` consecutive timer ticks of the continuous loop starting at tick
index `t`. -/
def runCont {V : Type} (env : Env V) : Nat → Nat → CWorld V → CWorld V
  | _, 0, w => w
  | t, k + 1, w => runCont env (t + 1) k (update_plot env t w)

/-- Continuous-mode `start_acquisition`: create and start the tasks, reset
the series and the index, start the timer. -/
def cstart_acquisition {V : Type} (w : CWorld V) : CWorld V :=
  { w with
    app := { w.app with
      aoTaskBound := true, aiTaskBound := true, current_index := 0,
      deltat := [], ain := [], aout := [], acquiring := true,
      timerActive := true },
    events := w.events ++ [Event.timerStart] }

/-- Continuous-mode `stop_acquisition` (the external stop signal): stop the
timer, stop and clear both tasks, then save the data file. -/
def stop_acquisition {V : Type} (env : Env V) (fmt : V → String)
    (w : CWorld V) : CWorld V :=
  let w1 : CWorld V :=
    { w with app := { w.app with timerActive := false },
             events := w.events ++ [Event.timerStop] }
  let w2 : CWorld V :=
    if w1.app.aoTaskBound then
      { w1 with events := w1.events ++ [Event.stopTaskAO, Event.clearTaskAO] }
    else w1
  let w3 : CWorld V :=
    if w2.app.aiTaskBound then
      { w2 with events := w2.events ++ [Event.stopTaskAI, Event.clearTaskAI] }
    else w2
  let w4 : CWorld V := { w3 with app := { w3.app with acquiring := false } }
  let fn := "testdata/data_" ++ env.csvStamp ++ ".csv"
  { w4 with
    files := w4.files ++
      [(fn, csvHeader :: csvRows fmt w4.app.deltat w4.app.aout w4.app.ain)],
    events := w4.events ++ [Event.fileOut fn] }

/-- The world of a freshly constructed continuous-mode `DAQApp`. -/
def cinitWorld (V : Type) : CWorld V :=
  { app := { acquiring := false, timerActive := false, current_index := 0,
             deltat := [], aout := [], ain := [], aoTaskBound := false,
             aiTaskBound := false },
    files := [], events := [] }

/-! ## Closed forms for the data produced by `k` successful ticks -/

/-- Elapsed times recorded on ticks `i, i+1, …, i+k-1`. -/
def dtSeg {V : Type} (env : Env V) : Nat → Nat → List ℚ
  | _, 0 => []
  | i, k + 1 => env.clock i :: dtSeg env (i + 1) k

/-- Output voltages written on ticks `i, …, i+k-1` (the sine-table point at
the wrapped index). -/
def aoutSeg {V : Type} (env : Env V) : Nat → Nat → List V
  | _, 0 => []
  | i, k + 1 => env.aopoints (i % 100) :: aoutSeg env (i + 1) k

/-- Input voltages read on ticks `i, …, i+k-1`. -/
def ainSeg {V : Type} (env : Env V) : Nat → Nat → List V
  | _, 0 => []
  | i, k + 1 => env.readVal i :: ainSeg env (i + 1) k

/-- Events emitted by ticks `i, …, i+k-1`: per tick exactly one write
followed by one read. -/
def evSeg {V : Type} (env : Env V) : Nat → Nat → List (Event V)
  | _, 0 => []
  | i, k + 1 =>
    Event.writeAO (env.aopoints (i % 100)) ::
      Event.readAI (env.readVal i) :: evSeg env (i + 1) k

lemma dtSeg_length {V : Type} (env : Env V) :
    ∀ (k i : Nat), (dtSeg env i k).length = k
  | 0, _ => rfl
  | k + 1, i => by simpa [dtSeg] using dtSeg_length env k (i + 1)

lemma aoutSeg_length {V : Type} (env : Env V) :
    ∀ (k i : Nat), (aoutSeg env i k).length = k
  | 0, _ => rfl
  | k + 1, i => by simpa [aoutSeg] using aoutSeg_length env k (i + 1)

lemma ainSeg_length {V : Type} (env : Env V) :
    ∀ (k i : Nat), (ainSeg env i k).length = k
  | 0, _ => rfl
  | k + 1, i => by simpa [ainSeg] using ainSeg_length env k (i + 1)

/-! ## Run lemmas for the finite-mode loop -/

lemma effIdx_spec {ci i : Nat} (h1 : ci ≤ 100) (h2 : ci % 100 = i % 100) :
    effIdx ci = i % 100 := by
  unfold effIdx
  split <;> omega

lemma runTimer_inactive {V : Type} (env : Env V) (fmt : V → String)
    (rnd : V → V) (fuel : Nat) (w : World V)
    (h : w.app.timerActive = false) :
    runTimer env fmt rnd fuel w = w := by
  cases fuel with
  | zero => rfl
  | succ fuel => simp [runTimer, h]

lemma runTimer_add {V : Type} (env : Env V) (fmt : V → String) (rnd : V → V)
    (a b : Nat) (w : World V) :
    runTimer env fmt rnd (a + b) w =
      runTimer env fmt rnd b (runTimer env fmt rnd a w) := by
  induction a generalizing w with
  | zero => simp [runTimer]
  | succ a ih =>
    have hshift : a + 1 + b = (a + b) + 1 := by omega
    rw [hshift]
    by_cases hT : w.app.timerActive = true
    · rw [runTimer, if_pos hT, ih]
      rw [show runTimer env fmt rnd (a + 1) w =
        runTimer env fmt rnd a (perform_iteration env fmt rnd w) from by
          rw [runTimer, if_pos hT]]
    · have hF : w.app.timerActive = false := by simpa using hT
      rw [runTimer, if_neg (by simp [hF]),
        runTimer_inactive env fmt rnd (a + 1) w hF,
        runTimer_inactive env fmt rnd b w hF]

/-- One successful (write and read both succeed) non-final tick. -/
lemma perform_iteration_tick {V : Type} (env : Env V) (fmt : V → String)
    (rnd : V → V) (w : World V)
    (hit : w.app.iteration < w.app.loop_count)
    (hci : w.app.current_index ≤ 100)
    (hmod : w.app.current_index % 100 = w.app.iteration % 100)
    (hw0 : env.writeOk w.app.iteration = true)
    (hr0 : env.readOk w.app.iteration = true) :
    perform_iteration env fmt rnd w =
      { w with
        app := { w.app with
          current_index := w.app.iteration % 100 + 1,
          iteration := w.app.iteration + 1,
          deltat := w.app.deltat ++ [env.clock w.app.iteration],
          aout := w.app.aout ++ [env.aopoints (w.app.iteration % 100)],
          ain := w.app.ain ++ [env.readVal w.app.iteration] },
        events := w.events ++
          [Event.writeAO (env.aopoints (w.app.iteration % 100)),
            Event.readAI (env.readVal w.app.iteration)] } := by
  unfold perform_iteration
  dsimp only
  rw [if_neg (by omega), if_pos hw0, if_pos hr0, effIdx_spec hci hmod]

/-- Running `k` ticks while all of them succeed and the iteration budget is
not yet exhausted: the three series and the trace extend by the closed-form
segments, and the wrapped output index tracks the iteration counter. -/
lemma run_ticks {V : Type} (env : Env V) (fmt : V → String) (rnd : V → V) :
    ∀ (k : Nat) (w : World V),
      w.app.timerActive = true →
      w.app.iteration + k ≤ w.app.loop_count →
      w.app.current_index ≤ 100 →
      w.app.current_index % 100 = w.app.iteration % 100 →
      (∀ t, w.app.iteration ≤ t → t < w.app.iteration + k →
        env.writeOk t = true ∧ env.readOk t = true) →
      ∃ ci, ci ≤ 100 ∧ ci % 100 = (w.app.iteration + k) % 100 ∧
        runTimer env fmt rnd k w =
          { w with
            app := { w.app with
              iteration := w.app.iteration + k,
              current_index := ci,
              deltat := w.app.deltat ++ dtSeg env w.app.iteration k,
              aout := w.app.aout ++ aoutSeg env w.app.iteration k,
              ain := w.app.ain ++ ainSeg env w.app.iteration k },
            events := w.events ++ evSeg env w.app.iteration k } := by
  intro k
  induction k with
  | zero =>
    intro w hT hle hci hmod hok
    refine ⟨w.app.current_index, hci, by omega, ?_⟩
    cases w with
    | mk app files db events =>
      cases app
      simp [runTimer, dtSeg, aoutSeg, ainSeg, evSeg]
  | succ k ih =>
    intro w hT hle hci hmod hok
    have hw0 := (hok w.app.iteration le_rfl (by omega)).1
    have hr0 := (hok w.app.iteration le_rfl (by omega)).2
    have hstep : runTimer env fmt rnd (k + 1) w =
        runTimer env fmt rnd k (perform_iteration env fmt rnd w) := by
      rw [runTimer, if_pos hT]
    rw [hstep, perform_iteration_tick env fmt rnd w (by omega) hci hmod hw0 hr0]
    obtain ⟨ci, h1, h2, h3⟩ := ih
      { w with
        app := { w.app with
          current_index := w.app.iteration % 100 + 1,
          iteration := w.app.iteration + 1,
          deltat := w.app.deltat ++ [env.clock w.app.iteration],
          aout := w.app.aout ++ [env.aopoints (w.app.iteration % 100)],
          ain := w.app.ain ++ [env.readVal w.app.iteration] },
        events := w.events ++
          [Event.writeAO (env.aopoints (w.app.iteration % 100)),
            Event.readAI (env.readVal w.app.iteration)] }
      hT
      (by show w.app.iteration + 1 + k ≤ w.app.loop_count
          omega)
      (by show w.app.iteration % 100 + 1 ≤ 100
          omega)
      (by show (w.app.iteration % 100 + 1) % 100 = (w.app.iteration + 1) % 100
          omega)
      (by intro t ht1 ht2
          have ht1n : w.app.iteration + 1 ≤ t := ht1
          have ht2n : t < w.app.iteration + 1 + k := ht2
          exact hok t (by omega) (by omega))
    have h2n : ci % 100 = (w.app.iteration + 1 + k) % 100 := h2
    refine ⟨ci, h1, by omega, ?_⟩
    rw [h3]
    simp only [dtSeg, aoutSeg, ainSeg, evSeg]
    simp [List.append_assoc, World.mk.injEq, AppState.mk.injEq]
    omega

/-! ## Event predicates and completion characterisation -/

/-- Is the event a driver write or read? -/
def wrEv {V : Type} : Event V → Bool
  | Event.writeAO _ => true
  | Event.readAI _ => true
  | _ => false

/-- Is the event a driver write? -/
def isWriteEv {V : Type} : Event V → Bool
  | Event.writeAO _ => true
  | _ => false

/-- Is the event a driver read? -/
def isReadEv {V : Type} : Event V → Bool
  | Event.readAI _ => true
  | _ => false

/-- Is the event a task StopTask or ClearTask call? -/
def isCleanupEv {V : Type} : Event V → Bool
  | Event.stopTaskAO => true
  | Event.clearTaskAO => true
  | Event.stopTaskAI => true
  | Event.clearTaskAI => true
  | _ => false

lemma completionSteps_files {V : Type} (env : Env V) (fmt : V → String)
    (rnd : V → V) (w : World V) :
    (completionSteps env fmt rnd w).files =
      w.files ++ [(csvFileName env,
        csvHeader :: csvRows fmt w.app.deltat w.app.aout w.app.ain)] := by
  by_cases hp : env.upPngOk = true <;> by_cases hc : env.upCsvOk = true <;>
    by_cases he : w.app.errored = true <;>
    simp [completionSteps, save_data_to_file, save_plot_as_png, gd,
      save_data_to_database, hp, hc, he]

lemma completionSteps_db {V : Type} (env : Env V) (fmt : V → String)
    (rnd : V → V) (w : World V) :
    (completionSteps env fmt rnd w).db =
      some (dbInsertAll env.dbStamp rnd (dbEnsure w.db)
        (zip3 w.app.deltat w.app.aout w.app.ain)) := by
  by_cases hp : env.upPngOk = true <;> by_cases hc : env.upCsvOk = true <;>
    by_cases he : w.app.errored = true <;>
    simp [completionSteps, save_data_to_file, save_plot_as_png, gd,
      save_data_to_database, hp, hc, he]

lemma completionSteps_timer {V : Type} (env : Env V) (fmt : V → String)
    (rnd : V → V) (w : World V) :
    (completionSteps env fmt rnd w).app.timerActive = w.app.timerActive := by
  by_cases hp : env.upPngOk = true <;> by_cases hc : env.upCsvOk = true <;>
    by_cases he : w.app.errored = true <;>
    simp [completionSteps, save_data_to_file, save_plot_as_png, gd,
      save_data_to_database, hp, hc, he]

lemma completionSteps_deltat {V : Type} (env : Env V) (fmt : V → String)
    (rnd : V → V) (w : World V) :
    (completionSteps env fmt rnd w).app.deltat = w.app.deltat := by
  by_cases hp : env.upPngOk = true <;> by_cases hc : env.upCsvOk = true <;>
    by_cases he : w.app.errored = true <;>
    simp [completionSteps, save_data_to_file, save_plot_as_png, gd,
      save_data_to_database, hp, hc, he]

lemma completionSteps_aout {V : Type} (env : Env V) (fmt : V → String)
    (rnd : V → V) (w : World V) :
    (completionSteps env fmt rnd w).app.aout = w.app.aout := by
  by_cases hp : env.upPngOk = true <;> by_cases hc : env.upCsvOk = true <;>
    by_cases he : w.app.errored = true <;>
    simp [completionSteps, save_data_to_file, save_plot_as_png, gd,
      save_data_to_database, hp, hc, he]

lemma completionSteps_ain {V : Type} (env : Env V) (fmt : V → String)
    (rnd : V → V) (w : World V) :
    (completionSteps env fmt rnd w).app.ain = w.app.ain := by
  by_cases hp : env.upPngOk = true <;> by_cases hc : env.upCsvOk = true <;>
    by_cases he : w.app.errored = true <;>
    simp [completionSteps, save_data_to_file, save_plot_as_png, gd,
      save_data_to_database, hp, hc, he]

lemma completionSteps_events {V : Type} (env : Env V) (fmt : V → String)
    (rnd : V → V) (w : World V) :
    ∃ tail, (completionSteps env fmt rnd w).events = w.events ++ tail ∧
      ∀ e ∈ tail, wrEv e = false ∧ isCleanupEv e = false := by
  by_cases hp : env.upPngOk = true <;> by_cases hc : env.upCsvOk = true <;>
    by_cases he : w.app.errored = true <;>
    · simp only [completionSteps, save_data_to_file, save_plot_as_png, gd,
        save_data_to_database, hp, hc, he, if_true, if_false,
        Bool.false_eq_true, List.append_assoc]
      refine ⟨_, rfl, ?_⟩
      intro e he2
      fin_cases he2 <;> exact ⟨rfl, rfl⟩

lemma runTimer_one_active {V : Type} (env : Env V) (fmt : V → String)
    (rnd : V → V) (w : World V) (h : w.app.timerActive = true) :
    runTimer env fmt rnd 1 w = perform_iteration env fmt rnd w := by
  rw [runTimer, if_pos h]
  rfl

/-- The completion branch of the callback fires exactly when the iteration
count has been reached: it stops the timer and runs the persistence and
upload steps. -/
lemma perform_iteration_complete {V : Type} (env : Env V) (fmt : V → String)
    (rnd : V → V) (w : World V)
    (h : w.app.loop_count ≤ w.app.iteration) :
    perform_iteration env fmt rnd w =
      completionSteps env fmt rnd
        { w with app := { w.app with timerActive := false },
                 events := w.events ++ [Event.timerStop] } := by
  unfold perform_iteration
  dsimp only
  rw [if_pos h]

/-- A full finite-mode run in which every tick succeeds: after `N` ticks the
timer fires once more, stops itself and runs the completion steps on the
closed-form data. -/
lemma run_success {V : Type} (env : Env V) (fmt : V → String) (rnd : V → V)
    (N extra : Nat) (hN : 0 < N)
    (hok : ∀ t, t < N → env.writeOk t = true ∧ env.readOk t = true) :
    ∃ ci, runFinite env fmt rnd N (N + 1 + extra) =
      completionSteps env fmt rnd
        { app := { timerActive := false, errored := false, iteration := N,
                   loop_count := N, current_index := ci,
                   deltat := dtSeg env 0 N, aout := aoutSeg env 0 N,
                   ain := ainSeg env 0 N, aoTaskBound := true,
                   aiTaskBound := true },
          files := [], db := none,
          events := Event.timerStart :: (evSeg env 0 N ++ [Event.timerStop]) } := by
  have hstart : start_acquisition N (initWorld V) =
      { app := { timerActive := true, errored := false, iteration := 0,
                 loop_count := N, current_index := 0, deltat := [], aout := [],
                 ain := [], aoTaskBound := true, aiTaskBound := true },
        files := [], db := none, events := [Event.timerStart] } := by
    unfold start_acquisition initWorld
    dsimp only
    rw [if_neg (by omega)]
    simp
  obtain ⟨ci, h1, h2, h3⟩ := run_ticks env fmt rnd N
    { app := { timerActive := true, errored := false, iteration := 0,
               loop_count := N, current_index := 0, deltat := [], aout := [],
               ain := [], aoTaskBound := true, aiTaskBound := true },
      files := [], db := none, events := [Event.timerStart] }
    rfl (by show 0 + N ≤ N; omega) (by show (0 : Nat) ≤ 100; omega) rfl
    (by intro t ht1 ht2
        have ht2n : t < 0 + N := ht2
        exact hok t (by omega))
  have h3c : runTimer env fmt rnd N
      { app := { timerActive := true, errored := false, iteration := 0,
                 loop_count := N, current_index := 0, deltat := [], aout := [],
                 ain := [], aoTaskBound := true, aiTaskBound := true },
        files := [], db := none, events := [Event.timerStart] } =
      ({ app := { timerActive := true, errored := false, iteration := N,
                  loop_count := N, current_index := ci,
                  deltat := dtSeg env 0 N, aout := aoutSeg env 0 N,
                  ain := ainSeg env 0 N, aoTaskBound := true,
                  aiTaskBound := true },
         files := [], db := none,
         events := Event.timerStart :: evSeg env 0 N } : World V) := by
    rw [h3]
    simp
  refine ⟨ci, ?_⟩
  unfold runFinite
  rw [hstart, show N + 1 + extra = N + (1 + extra) from by omega,
    runTimer_add, h3c, runTimer_add env fmt rnd 1 extra,
    runTimer_one_active env fmt rnd _ rfl,
    perform_iteration_complete env fmt rnd _ (le_refl N)]
  rw [runTimer_inactive env fmt rnd extra _ (by rw [completionSteps_timer])]
  congr 1

/-! ## Properties of the per-tick event segments -/

lemma evSeg_countP_write {V : Type} (env : Env V) :
    ∀ (k i : Nat), (evSeg env i k).countP isWriteEv = k
  | 0, _ => rfl
  | k + 1, i => by
    simp [evSeg, List.countP_cons, isWriteEv, isReadEv,
      evSeg_countP_write env k (i + 1)]

lemma evSeg_countP_read {V : Type} (env : Env V) :
    ∀ (k i : Nat), (evSeg env i k).countP isReadEv = k
  | 0, _ => rfl
  | k + 1, i => by
    simp [evSeg, List.countP_cons, isWriteEv, isReadEv,
      evSeg_countP_read env k (i + 1)]

lemma evSeg_countP_cleanup {V : Type} (env : Env V) :
    ∀ (k i : Nat), (evSeg env i k).countP isCleanupEv = 0
  | 0, _ => rfl
  | k + 1, i => by
    simp [evSeg, List.countP_cons, isCleanupEv,
      evSeg_countP_cleanup env k (i + 1)]

lemma evSeg_filter_wr {V : Type} (env : Env V) :
    ∀ (k i : Nat), (evSeg env i k).filter wrEv = evSeg env i k
  | 0, _ => rfl
  | k + 1, i => by
    simp [evSeg, List.filter_cons, wrEv, evSeg_filter_wr env k (i + 1)]

/-- Strict write-then-read alternation: the list is a sequence of
write/read pairs, each write immediately followed by its read. -/
def altWR {V : Type} : List (Event V) → Bool
  | [] => true
  | Event.writeAO _ :: Event.readAI _ :: rest => altWR rest
  | _ => false

lemma altWR_evSeg {V : Type} (env : Env V) :
    ∀ (k i : Nat), altWR (evSeg env i k) = true
  | 0, _ => rfl
  | k + 1, i => by
    rw [evSeg]
    show altWR (evSeg env (i + 1) k) = true
    exact altWR_evSeg env k (i + 1)

lemma evSeg_mem_write {V : Type} (env : Env V) :
    ∀ (k i : Nat) (v : V), Event.writeAO v ∈ evSeg env i k →
      ∃ j, j < k ∧ v = env.aopoints ((i + j) % 100)
  | 0, _, _, h => by simp [evSeg] at h
  | k + 1, i, v, h => by
    rw [evSeg] at h
    rcases List.mem_cons.mp h with h | h
    · refine ⟨0, by omega, ?_⟩
      injection h with h
      try exact h
    · rcases List.mem_cons.mp h with h | h
      · cases h
      · obtain ⟨j, hj, hv⟩ := evSeg_mem_write env k (i + 1) v h
        refine ⟨j + 1, by omega, ?_⟩
        rw [hv]
        congr 1
        omega

/-! ## The failing tick and the failure run -/

/-- A tick whose read raises: `self.aout` has already been appended, the
handler stops the timer, marks the error and re-raises; no task stop or
clear happens. -/
lemma perform_iteration_readfail {V : Type} (env : Env V) (fmt : V → String)
    (rnd : V → V) (w : World V)
    (hit : w.app.iteration < w.app.loop_count)
    (hci : w.app.current_index ≤ 100)
    (hmod : w.app.current_index % 100 = w.app.iteration % 100)
    (hw0 : env.writeOk w.app.iteration = true)
    (hr0 : env.readOk w.app.iteration = false) :
    perform_iteration env fmt rnd w =
      { w with
        app := { w.app with
          current_index := w.app.iteration % 100,
          aout := w.app.aout ++ [env.aopoints (w.app.iteration % 100)],
          timerActive := false, errored := true },
        events := w.events ++
          [Event.writeAO (env.aopoints (w.app.iteration % 100)),
            Event.readFailed, Event.timerStop, Event.errRaised] } := by
  unfold perform_iteration
  dsimp only
  rw [if_neg (by omega), if_pos hw0, if_neg (by simp [hr0]),
    effIdx_spec hci hmod]

/-- A finite-mode run whose ticks `0, …, k-1` succeed and whose read on
tick `k < N` raises: the run aborts on tick `k` with the timer stopped, the
error surfaced, no completion steps executed, and no task stop/clear. -/
lemma run_fail {V : Type} (env : Env V) (fmt : V → String) (rnd : V → V)
    (N k extra : Nat) (hkN : k < N)
    (hok : ∀ t, t < k → env.writeOk t = true ∧ env.readOk t = true)
    (hwk : env.writeOk k = true) (hrk : env.readOk k = false) :
    runFinite env fmt rnd N (k + 1 + extra) =
      { app := { timerActive := false, errored := true, iteration := k,
                 loop_count := N, current_index := k % 100,
                 deltat := dtSeg env 0 k,
                 aout := aoutSeg env 0 k ++ [env.aopoints (k % 100)],
                 ain := ainSeg env 0 k, aoTaskBound := true,
                 aiTaskBound := true },
        files := [], db := none,
        events := Event.timerStart :: (evSeg env 0 k ++
          [Event.writeAO (env.aopoints (k % 100)), Event.readFailed,
            Event.timerStop, Event.errRaised]) } := by
  have hstart : start_acquisition N (initWorld V) =
      { app := { timerActive := true, errored := false, iteration := 0,
                 loop_count := N, current_index := 0, deltat := [], aout := [],
                 ain := [], aoTaskBound := true, aiTaskBound := true },
        files := [], db := none, events := [Event.timerStart] } := by
    unfold start_acquisition initWorld
    dsimp only
    rw [if_neg (by omega)]
    simp
  obtain ⟨ci, h1, h2, h3⟩ := run_ticks env fmt rnd k
    { app := { timerActive := true, errored := false, iteration := 0,
               loop_count := N, current_index := 0, deltat := [], aout := [],
               ain := [], aoTaskBound := true, aiTaskBound := true },
      files := [], db := none, events := [Event.timerStart] }
    rfl (by show 0 + k ≤ N; omega) (by show (0 : Nat) ≤ 100; omega) rfl
    (by intro t ht1 ht2
        have ht2n : t < 0 + k := ht2
        exact hok t (by omega))
  have h1n : ci ≤ 100 := h1
  have h2n : ci % 100 = (0 + k) % 100 := h2
  have h3c : runTimer env fmt rnd k
      { app := { timerActive := true, errored := false, iteration := 0,
                 loop_count := N, current_index := 0, deltat := [], aout := [],
                 ain := [], aoTaskBound := true, aiTaskBound := true },
        files := [], db := none, events := [Event.timerStart] } =
      ({ app := { timerActive := true, errored := false, iteration := k,
                  loop_count := N, current_index := ci,
                  deltat := dtSeg env 0 k, aout := aoutSeg env 0 k,
                  ain := ainSeg env 0 k, aoTaskBound := true,
                  aiTaskBound := true },
         files := [], db := none,
         events := Event.timerStart :: evSeg env 0 k } : World V) := by
    rw [h3]
    simp
  unfold runFinite
  rw [hstart, show k + 1 + extra = k + (1 + extra) from by omega,
    runTimer_add, h3c, runTimer_add env fmt rnd 1 extra,
    runTimer_one_active env fmt rnd _ rfl,
    perform_iteration_readfail env fmt rnd _ (by show k < N; omega)
      (by show ci ≤ 100; omega)
      (by show ci % 100 = k % 100; omega) hwk hrk]
  rw [runTimer_inactive env fmt rnd extra _ rfl]
  simp

/-! ## Run lemma for the continuous-mode loop -/

lemma update_plot_tick {V : Type} (env : Env V) (t : Nat) (w : CWorld V)
    (hci : w.app.current_index ≤ 100)
    (hmod : w.app.current_index % 100 = t % 100)
    (hw0 : env.writeOk t = true) (hr0 : env.readOk t = true) :
    update_plot env t w =
      { w with
        app := { w.app with
          current_index := t % 100 + 1,
          deltat := w.app.deltat ++ [env.clock t],
          aout := w.app.aout ++ [env.aopoints (t % 100)],
          ain := w.app.ain ++ [env.readVal t] },
        events := w.events ++
          [Event.writeAO (env.aopoints (t % 100)),
            Event.readAI (env.readVal t)] } := by
  unfold update_plot
  dsimp only
  rw [if_pos hw0, if_pos hr0, effIdx_spec hci hmod]

lemma runCont_ticks {V : Type} (env : Env V) :
    ∀ (k t : Nat) (w : CWorld V),
      w.app.current_index ≤ 100 →
      w.app.current_index % 100 = t % 100 →
      (∀ s, t ≤ s → s < t + k →
        env.writeOk s = true ∧ env.readOk s = true) →
      ∃ ci, ci ≤ 100 ∧ ci % 100 = (t + k) % 100 ∧
        runCont env t k w =
          { w with
            app := { w.app with
              current_index := ci,
              deltat := w.app.deltat ++ dtSeg env t k,
              aout := w.app.aout ++ aoutSeg env t k,
              ain := w.app.ain ++ ainSeg env t k },
            events := w.events ++ evSeg env t k } := by
  intro k
  induction k with
  | zero =>
    intro t w hci hmod hok
    refine ⟨w.app.current_index, hci, by omega, ?_⟩
    cases w with
    | mk app files events =>
      cases app
      simp [runCont, dtSeg, aoutSeg, ainSeg, evSeg]
  | succ k ih =>
    intro t w hci hmod hok
    have hw0 := (hok t le_rfl (by omega)).1
    have hr0 := (hok t le_rfl (by omega)).2
    have hstep : runCont env t (k + 1) w =
        runCont env (t + 1) k (update_plot env t w) := rfl
    rw [hstep, update_plot_tick env t w hci hmod hw0 hr0]
    obtain ⟨ci, h1, h2, h3⟩ := ih (t + 1)
      { w with
        app := { w.app with
          current_index := t % 100 + 1,
          deltat := w.app.deltat ++ [env.clock t],
          aout := w.app.aout ++ [env.aopoints (t % 100)],
          ain := w.app.ain ++ [env.readVal t] },
        events := w.events ++
          [Event.writeAO (env.aopoints (t % 100)),
            Event.readAI (env.readVal t)] }
      (by show t % 100 + 1 ≤ 100
          omega)
      (by show (t % 100 + 1) % 100 = (t + 1) % 100
          omega)
      (by intro s hs1 hs2
          exact hok s (by omega) (by omega))
    refine ⟨ci, h1, by omega, ?_⟩
    rw [h3]
    simp only [dtSeg, aoutSeg, ainSeg, evSeg]
    simp [List.append_assoc, CWorld.mk.injEq, CApp.mk.injEq]

/-! ## The sine table of `generate_output_points`

`np.linspace(0, 2*np.pi, 100, endpoint=False)` samples the points
`2*pi*k/100` for `k = 0, …, 99`, so the table holds
`2.5*sin(2*pi*k/100) + 2.5`. -/

/-- The 100-point AO sine table. -/
noncomputable def sinTable (k : Nat) : ℝ :=
  2.5 * Real.sin (2 * Real.pi * k / 100) + 2.5

lemma sinTable_bounds (k : Nat) : 0 ≤ sinTable k ∧ sinTable k ≤ 5 := by
  unfold sinTable
  constructor <;>
    nlinarith [Real.neg_one_le_sin (2 * Real.pi * k / 100),
      Real.sin_le_one (2 * Real.pi * k / 100)]

/-! ## Claim theorems -/

lemma isWriteEv_false_of_wrEv {V : Type} {e : Event V} (h : wrEv e = false) :
    isWriteEv e = false := by
  cases e <;> simp_all [wrEv, isWriteEv]

lemma isReadEv_false_of_wrEv {V : Type} {e : Event V} (h : wrEv e = false) :
    isReadEv e = false := by
  cases e <;> simp_all [wrEv, isReadEv]

lemma countP_zero_of_all {V : Type} {tail : List (Event V)} {p : Event V → Bool}
    (h : ∀ e ∈ tail, p e = false) : tail.countP p = 0 := by
  rw [List.countP_eq_zero]
  intro e he
  simp [h e he]

/-- C1: a finite-mode run with positive iteration limit `N` (and no driver
fault) performs exactly `N` driver writes and exactly `N` driver reads and
then stops its own timer; the timer callback that observes
`iteration >= loop_count` performs no further write or read, and once the
timer is inactive the surplus `extra` timer slots fire nothing. -/
theorem c1_finite_run_exact_ticks (env : Env ℚ) (N extra : Nat) (hN : 0 < N)
    (hw : ∀ t, env.writeOk t = true) (hr : ∀ t, env.readOk t = true) :
    (runFinite env fmt3 roundTo3 N (N + 1 + extra)).events.countP isWriteEv = N ∧
    (runFinite env fmt3 roundTo3 N (N + 1 + extra)).events.countP isReadEv = N ∧
    (runFinite env fmt3 roundTo3 N (N + 1 + extra)).app.timerActive = false := by
  obtain ⟨ci, heq⟩ := run_success env fmt3 roundTo3 N extra hN
    (fun t ht => ⟨hw t, hr t⟩)
  obtain ⟨tail, hev, htail⟩ := completionSteps_events env fmt3 roundTo3 _
  rw [heq]
  refine ⟨?_, ?_, ?_⟩
  · rw [hev]
    have ht0 : tail.countP isWriteEv = 0 :=
      countP_zero_of_all (fun e he => isWriteEv_false_of_wrEv (htail e he).1)
    simp [List.countP_append, List.countP_cons, isWriteEv,
      evSeg_countP_write env N 0, ht0]
  · rw [hev]
    have ht0 : tail.countP isReadEv = 0 :=
      countP_zero_of_all (fun e he => isReadEv_false_of_wrEv (htail e he).1)
    simp [List.countP_append, List.countP_cons, isReadEv,
      evSeg_countP_read env N 0, ht0]
  · rw [completionSteps_timer]

/-- C6: re-reading the rows written by the file sink (split each line at
commas and parse each cell as a decimal numeral, as the dashboard does)
reproduces exactly the original sample triples rounded to three decimals. -/
theorem c6_file_sink_roundtrip (ts os is : List ℚ) :
    (csvRows fmt3 ts os is).map
        (fun line => (splitComma line.data).map parseFixed) =
      (zip3 ts os is).map (fun x =>
        [some (roundTo3 x.1), some (roundTo3 x.2.1), some (roundTo3 x.2.2)]) := by
  unfold csvRows
  rw [List.map_map]
  refine List.map_congr_left (fun x hx => ?_)
  show (splitComma (csvRow fmt3 x.1 x.2.1 x.2.2).data).map parseFixed = _
  rw [splitComma_csvRow]
  simp [parseFixed_fmt3Chars]

/-- C8: the structured-store sink keeps the `acquisition_data` table
(modelled by `DBRow`: auto-increment id, text timestamp, real time, real AO
voltage, real AI voltage), creating it empty with ids starting at 1 when it
is absent; one run appends exactly one row per sample triple, with
three-decimal-rounded values and consecutive auto-generated ids, and every
pre-existing row is preserved unchanged as a prefix. -/
theorem c8_database_sink_appends (w : World ℚ) (stamp : String)
    (xs : List (ℚ × ℚ × ℚ)) :
    ∃ d, (save_data_to_database stamp roundTo3 w xs).db = some d ∧
      d.rows = (dbEnsure w.db).rows ++
        dbNewRows stamp roundTo3 (dbEnsure w.db).nextId xs ∧
      (dbNewRows stamp roundTo3 (dbEnsure w.db).nextId xs).length = xs.length ∧
      d.nextId = (dbEnsure w.db).nextId + xs.length ∧
      dbEnsure (none : Option (DBState ℚ)) = ⟨1, []⟩ :=
  ⟨_, rfl, dbInsertAll_rows _ _ _ _, dbNewRows_length _ _ _ _,
    dbInsertAll_nextId _ _ _ _, rfl⟩

lemma filter_wr_nil_of_all {V : Type} {tail : List (Event V)}
    (h : ∀ e ∈ tail, wrEv e = false) : tail.filter wrEv = [] := by
  induction tail with
  | nil => rfl
  | cons e es ih =>
    rw [List.filter_cons, if_neg (by simp [h e (by simp)])]
    exact ih (fun x hx => h x (by simp [hx]))

/-- C5: both acquisition loops interleave the driver calls as strict
write-then-read pairs: on a fault-free finite-mode run of `N` ticks, and on
`K` fault-free ticks of the continuous-mode loop, the subtrace of driver
events is exactly the alternation write, read, write, read, … with one
write/read pair per tick and every write strictly before the read of its
tick. -/
theorem c5_write_before_read (env : Env ℚ) (N K extra : Nat) (hN : 0 < N)
    (hw : ∀ t, env.writeOk t = true) (hr : ∀ t, env.readOk t = true) :
    ((runFinite env fmt3 roundTo3 N (N + 1 + extra)).events.filter wrEv =
        evSeg env 0 N ∧
      altWR ((runFinite env fmt3 roundTo3 N (N + 1 + extra)).events.filter
        wrEv) = true) ∧
    ((runCont env 0 K (cstart_acquisition (cinitWorld ℚ))).events.filter wrEv =
        evSeg env 0 K ∧
      altWR ((runCont env 0 K (cstart_acquisition (cinitWorld ℚ))).events.filter
        wrEv) = true) := by
  have hfin : (runFinite env fmt3 roundTo3 N (N + 1 + extra)).events.filter
      wrEv = evSeg env 0 N := by
    obtain ⟨ci, heq⟩ := run_success env fmt3 roundTo3 N extra hN
      (fun t ht => ⟨hw t, hr t⟩)
    obtain ⟨tail, hev, htail⟩ := completionSteps_events env fmt3 roundTo3 _
    rw [heq, hev]
    have ht0 : tail.filter wrEv = [] :=
      filter_wr_nil_of_all (fun e he => (htail e he).1)
    simp [List.filter_append, List.filter_cons, wrEv,
      evSeg_filter_wr env N 0, ht0]
  have hcs : cstart_acquisition (cinitWorld ℚ) =
      ({ app := { acquiring := true, timerActive := true, current_index := 0,
                  deltat := [], aout := [], ain := [], aoTaskBound := true,
                  aiTaskBound := true },
         files := [], events := [Event.timerStart] } : CWorld ℚ) := by
    rfl
  have hcont : (runCont env 0 K (cstart_acquisition (cinitWorld ℚ))).events.filter
      wrEv = evSeg env 0 K := by
    rw [hcs]
    obtain ⟨ci, h1, h2, h3⟩ := runCont_ticks env K 0
      { app := { acquiring := true, timerActive := true, current_index := 0,
                 deltat := [], aout := [], ain := [], aoTaskBound := true,
                 aiTaskBound := true },
        files := [], events := [Event.timerStart] }
      (by show (0 : Nat) ≤ 100; omega) rfl
      (fun s hs1 hs2 => ⟨hw s, hr s⟩)
    rw [h3]
    simp [List.filter_append, List.filter_cons, wrEv, evSeg_filter_wr env K 0]
  refine ⟨⟨hfin, ?_⟩, hcont, ?_⟩
  · rw [hfin]
    exact altWR_evSeg env N 0
  · rw [hcont]
    exact altWR_evSeg env K 0

/-- C7: a fault-free finite-mode run of `N` ticks produces exactly one data
file, named `PyDAQmx2/testdata/data_<timestamp>.csv` with the run's
generation timestamp, whose content is the single header row naming the
time/output/input columns followed by exactly `N` data rows, each a
comma-delimited triple of fixed three-decimal cells. -/
theorem c7_file_sink_format (env : Env ℚ) (N extra : Nat) (hN : 0 < N)
    (hw : ∀ t, env.writeOk t = true) (hr : ∀ t, env.readOk t = true) :
    (runFinite env fmt3 roundTo3 N (N + 1 + extra)).files =
      [(csvFileName env, csvHeader ::
        csvRows fmt3 (dtSeg env 0 N) (aoutSeg env 0 N) (ainSeg env 0 N))] ∧
    csvFileName env = "PyDAQmx2/testdata/data_" ++ env.csvStamp ++ ".csv" ∧
    csvHeader = "Time (s), AO (V), AI (V)" ∧
    (csvRows fmt3 (dtSeg env 0 N) (aoutSeg env 0 N) (ainSeg env 0 N)).length
      = N ∧
    ∀ r ∈ csvRows fmt3 (dtSeg env 0 N) (aoutSeg env 0 N) (ainSeg env 0 N),
      ∃ t o i, r = csvRow fmt3 t o i := by
  obtain ⟨ci, heq⟩ := run_success env fmt3 roundTo3 N extra hN
    (fun t ht => ⟨hw t, hr t⟩)
  refine ⟨?_, rfl, rfl, ?_, ?_⟩
  · rw [heq, completionSteps_files]
    simp
  · unfold csvRows
    rw [List.length_map, zip3_length_eq _ _ _
      (by rw [dtSeg_length, aoutSeg_length])
      (by rw [aoutSeg_length, ainSeg_length]), dtSeg_length]
  · intro r hr2
    unfold csvRows at hr2
    obtain ⟨x, hx, rfl⟩ := List.mem_map.mp hr2
    exact ⟨x.1, x.2.1, x.2.2, rfl⟩

/-- C9: in a fault-free finite-mode run driven by the real sine table of
`generate_output_points`, every voltage passed to `WriteAnalogF64` is one
of the 100 table points `2.5*sin(2*pi*k/100) + 2.5`, `k < 100` (the write
index wraps to 0 on reaching 100), and hence lies in the closed interval
`[0, 5]`. -/
theorem c9_output_in_sine_table (env : Env ℝ) (N extra : Nat) (hN : 0 < N)
    (hpts : env.aopoints = sinTable)
    (hw : ∀ t, env.writeOk t = true) (hr : ∀ t, env.readOk t = true) :
    ∀ v : ℝ, Event.writeAO v ∈
        (runFinite env (fun _ => "") id N (N + 1 + extra)).events →
      (∃ j, j < 100 ∧ v = sinTable j) ∧ 0 ≤ v ∧ v ≤ 5 := by
  obtain ⟨ci, heq⟩ := run_success env (fun _ => "") id N extra hN
    (fun t ht => ⟨hw t, hr t⟩)
  obtain ⟨tail, hev, htail⟩ := completionSteps_events env (fun _ => "") id _
  intro v hmem
  rw [heq, hev] at hmem
  rcases List.mem_append.mp hmem with h | h
  · rcases List.mem_cons.mp h with h | h
    · exact Event.noConfusion h
    · rcases List.mem_append.mp h with h | h
      · obtain ⟨j, hj, hv⟩ := evSeg_mem_write env N 0 v h
        rw [hpts] at hv
        refine ⟨⟨(0 + j) % 100, by omega, hv⟩, ?_⟩
        rw [hv]
        exact sinTable_bounds _
      · exact Event.noConfusion (List.mem_singleton.mp h)
  · exact absurd (htail _ h).1 (by simp [wrEv])

lemma dtSeg_congr {V : Type} (env env2 : Env V) (h : env.clock = env2.clock) :
    ∀ (k i : Nat), dtSeg env i k = dtSeg env2 i k
  | 0, _ => rfl
  | k + 1, i => by rw [dtSeg, dtSeg, h, dtSeg_congr env env2 h k (i + 1)]

lemma aoutSeg_congr {V : Type} (env env2 : Env V)
    (h : env.aopoints = env2.aopoints) :
    ∀ (k i : Nat), aoutSeg env i k = aoutSeg env2 i k
  | 0, _ => rfl
  | k + 1, i => by
    rw [aoutSeg, aoutSeg, h, aoutSeg_congr env env2 h k (i + 1)]

lemma ainSeg_congr {V : Type} (env env2 : Env V)
    (h : env.readVal = env2.readVal) :
    ∀ (k i : Nat), ainSeg env i k = ainSeg env2 i k
  | 0, _ => rfl
  | k + 1, i => by
    rw [ainSeg, ainSeg, h, ainSeg_congr env env2 h k (i + 1)]

lemma completionSteps_errored_csvfail {V : Type} (env : Env V)
    (fmt : V → String) (rnd : V → V) (w : World V)
    (hp : env.upPngOk = true) (hc : env.upCsvOk = false)
    (he : w.app.errored = false) :
    (completionSteps env fmt rnd w).app.errored = true := by
  simp [completionSteps, save_data_to_file, save_plot_as_png, gd,
    save_data_to_database, hp, hc, he]

/-- C4: when the CSV upload to the remote store fails (PNG upload having
succeeded) on a fault-free `N`-tick run, the failure is surfaced as an
error, yet the local filesystem and the database end up identical to those
of the same run with a succeeding upload: the single CSV file still holds
the header plus exactly the `N` rows written before the upload was
attempted, and the database insert has already completed. -/
theorem c4_upload_failure_isolated (env : Env ℚ) (N extra : Nat) (hN : 0 < N)
    (hw : ∀ t, env.writeOk t = true) (hr : ∀ t, env.readOk t = true)
    (hp : env.upPngOk = true) (hc : env.upCsvOk = false) :
    (runFinite env fmt3 roundTo3 N (N + 1 + extra)).app.errored = true ∧
    (runFinite env fmt3 roundTo3 N (N + 1 + extra)).files =
      (runFinite { env with upCsvOk := true } fmt3 roundTo3 N
        (N + 1 + extra)).files ∧
    (runFinite env fmt3 roundTo3 N (N + 1 + extra)).db =
      (runFinite { env with upCsvOk := true } fmt3 roundTo3 N
        (N + 1 + extra)).db ∧
    (runFinite env fmt3 roundTo3 N (N + 1 + extra)).files =
      [(csvFileName env, csvHeader ::
        csvRows fmt3 (dtSeg env 0 N) (aoutSeg env 0 N) (ainSeg env 0 N))] ∧
    (csvRows fmt3 (dtSeg env 0 N) (aoutSeg env 0 N) (ainSeg env 0 N)).length
      = N := by
  obtain ⟨ci, heq⟩ := run_success env fmt3 roundTo3 N extra hN
    (fun t ht => ⟨hw t, hr t⟩)
  obtain ⟨ci2, heq2⟩ := run_success { env with upCsvOk := true } fmt3 roundTo3
    N extra hN (fun t ht => ⟨hw t, hr t⟩)
  have hfiles : (runFinite env fmt3 roundTo3 N (N + 1 + extra)).files =
      [(csvFileName env, csvHeader ::
        csvRows fmt3 (dtSeg env 0 N) (aoutSeg env 0 N) (ainSeg env 0 N))] := by
    rw [heq, completionSteps_files]
    simp
  have hfiles2 : (runFinite { env with upCsvOk := true } fmt3 roundTo3 N
      (N + 1 + extra)).files =
      [(csvFileName env, csvHeader ::
        csvRows fmt3 (dtSeg env 0 N) (aoutSeg env 0 N) (ainSeg env 0 N))] := by
    rw [heq2, completionSteps_files]
    simp
    rw [dtSeg_congr { env with upCsvOk := true } env rfl N 0,
      aoutSeg_congr { env with upCsvOk := true } env rfl N 0,
      ainSeg_congr { env with upCsvOk := true } env rfl N 0]
    exact ⟨rfl, rfl⟩
  refine ⟨?_, ?_, ?_, hfiles, ?_⟩
  · rw [heq]
    exact completionSteps_errored_csvfail env fmt3 roundTo3 _ hp hc rfl
  · rw [hfiles, hfiles2]
  · rw [heq, heq2, completionSteps_db, completionSteps_db]
    simp only []
    rw [dtSeg_congr { env with upCsvOk := true } env rfl N 0,
      aoutSeg_congr { env with upCsvOk := true } env rfl N 0,
      ainSeg_congr { env with upCsvOk := true } env rfl N 0]
  · unfold csvRows
    rw [List.length_map, zip3_length_eq _ _ _
      (by rw [dtSeg_length, aoutSeg_length])
      (by rw [aoutSeg_length, ainSeg_length]), dtSeg_length]

/-- C2 (amended): a read fault on tick `k` of an `N`-tick run stops the
timer, surfaces the error, performs no retry (the driver subtrace ends with
the `k` completed pairs plus the orphan write of tick `k`), and performs NO
StopTask/ClearTask in the failing run itself; the stop and clear of both
lingering tasks happen exactly once at the start of the next
`start_acquisition`. -/
theorem c2_tick_failure_behaviour (env : Env ℚ) (N k extra M : Nat)
    (hkN : k < N) (hM : 0 < M)
    (hok : ∀ t, t < k → env.writeOk t = true ∧ env.readOk t = true)
    (hwk : env.writeOk k = true) (hrk : env.readOk k = false) :
    (runFinite env fmt3 roundTo3 N (k + 1 + extra)).app.errored = true ∧
    (runFinite env fmt3 roundTo3 N (k + 1 + extra)).app.timerActive = false ∧
    (runFinite env fmt3 roundTo3 N (k + 1 + extra)).events.filter wrEv =
      evSeg env 0 k ++ [Event.writeAO (env.aopoints (k % 100))] ∧
    (runFinite env fmt3 roundTo3 N (k + 1 + extra)).events.countP isCleanupEv
      = 0 ∧
    (start_acquisition M
        (runFinite env fmt3 roundTo3 N (k + 1 + extra))).events =
      (runFinite env fmt3 roundTo3 N (k + 1 + extra)).events ++
        [Event.stopTaskAO, Event.clearTaskAO, Event.stopTaskAI,
          Event.clearTaskAI, Event.timerStart] := by
  rw [run_fail env fmt3 roundTo3 N k extra hkN hok hwk hrk]
  refine ⟨rfl, rfl, ?_, ?_, ?_⟩
  · simp [List.filter_append, List.filter_cons, wrEv, evSeg_filter_wr env k 0]
  · simp [List.countP_append, List.countP_cons, isCleanupEv,
      evSeg_countP_cleanup env k 0]
  · unfold start_acquisition
    dsimp only
    rw [if_neg (by omega)]
    simp

/-- C3 (amended): the continuous-mode external stop (`stop_acquisition`)
invokes StopTask and ClearTask exactly once on each of the AO and AI tasks
as part of termination; finite-mode automatic termination, by contrast,
stops the timer and persists the data but performs no StopTask/ClearTask at
all. -/
theorem c3_termination_cleanup (env envc : Env ℚ) (N extra : Nat) (hN : 0 < N)
    (hw : ∀ t, env.writeOk t = true) (hr : ∀ t, env.readOk t = true)
    (w : CWorld ℚ) (hao : w.app.aoTaskBound = true)
    (hai : w.app.aiTaskBound = true) :
    (stop_acquisition envc fmt3 w).events =
      w.events ++ [Event.timerStop, Event.stopTaskAO, Event.clearTaskAO,
        Event.stopTaskAI, Event.clearTaskAI,
        Event.fileOut ("testdata/data_" ++ envc.csvStamp ++ ".csv")] ∧
    (runFinite env fmt3 roundTo3 N (N + 1 + extra)).app.timerActive = false ∧
    (runFinite env fmt3 roundTo3 N (N + 1 + extra)).events.countP isCleanupEv
      = 0 := by
  obtain ⟨ci, heq⟩ := run_success env fmt3 roundTo3 N extra hN
    (fun t ht => ⟨hw t, hr t⟩)
  obtain ⟨tail, hev, htail⟩ := completionSteps_events env fmt3 roundTo3 _
  refine ⟨?_, ?_, ?_⟩
  · simp [stop_acquisition, hao, hai, List.append_assoc]
  · rw [heq, completionSteps_timer]
  · rw [heq, hev]
    have ht0 : tail.countP isCleanupEv = 0 :=
      countP_zero_of_all (fun e he => (htail e he).2)
    simp [List.countP_append, List.countP_cons, isCleanupEv,
      evSeg_countP_cleanup env N 0, ht0]

/-- C10: the three in-memory series are reset to empty by every (valid)
`start_acquisition`; after a fault-free run of `N` ticks all three have
length exactly `N`; and a run whose read fails on tick `k` leaves `aout`
(appended before the write) one element longer than `deltat` and `ain`. -/
theorem c10_series_lengths (envS envF : Env ℚ) (N k extra : Nat) (hN : 0 < N)
    (hkN : k < N)
    (hwS : ∀ t, envS.writeOk t = true) (hrS : ∀ t, envS.readOk t = true)
    (hwF : ∀ t, envF.writeOk t = true)
    (hrF : ∀ t, t < k → envF.readOk t = true)
    (hrFk : envF.readOk k = false) :
    (∀ w : World ℚ, (start_acquisition N w).app.deltat = [] ∧
      (start_acquisition N w).app.aout = [] ∧
      (start_acquisition N w).app.ain = []) ∧
    ((runFinite envS fmt3 roundTo3 N (N + 1 + extra)).app.deltat.length = N ∧
      (runFinite envS fmt3 roundTo3 N (N + 1 + extra)).app.aout.length = N ∧
      (runFinite envS fmt3 roundTo3 N (N + 1 + extra)).app.ain.length = N) ∧
    ((runFinite envF fmt3 roundTo3 N (k + 1 + extra)).app.aout.length
        = k + 1 ∧
      (runFinite envF fmt3 roundTo3 N (k + 1 + extra)).app.deltat.length = k ∧
      (runFinite envF fmt3 roundTo3 N (k + 1 + extra)).app.ain.length = k) := by
  refine ⟨?_, ?_, ?_⟩
  · intro w
    unfold start_acquisition
    dsimp only
    rw [if_neg (by omega)]
    exact ⟨rfl, rfl, rfl⟩
  · obtain ⟨ci, heq⟩ := run_success envS fmt3 roundTo3 N extra hN
      (fun t ht => ⟨hwS t, hrS t⟩)
    rw [heq]
    rw [completionSteps_deltat, completionSteps_aout, completionSteps_ain]
    refine ⟨?_, ?_, ?_⟩
    · show (dtSeg envS 0 N).length = N
      rw [dtSeg_length]
    · show (aoutSeg envS 0 N).length = N
      rw [aoutSeg_length]
    · show (ainSeg envS 0 N).length = N
      rw [ainSeg_length]
  · rw [run_fail envF fmt3 roundTo3 N k extra hkN
      (fun t ht => ⟨hwF t, hrF t ht⟩) (hwF k) hrFk]
    refine ⟨?_, ?_, ?_⟩
    · show (aoutSeg envF 0 k ++ [envF.aopoints (k % 100)]).length = k + 1
      rw [List.length_append, aoutSeg_length]
      rfl
    · show (dtSeg envF 0 k).length = k
      rw [dtSeg_length]
    · show (ainSeg envF 0 k).length = k
      rw [ainSeg_length]

/-! ## Concrete environments for counterexamples and witnesses -/

/-- A fault-free driver environment over rational voltages. -/
def envAllOk : Env ℚ :=
  { aopoints := fun j => (j : ℚ), writeOk := fun _ => true,
    readOk := fun _ => true, readVal := fun _ => 1, clock := fun t => (t : ℚ),
    upPngOk := true, upCsvOk := true, csvStamp := "20250102_030405",
    pngStamp := "20250102_030405", dbStamp := "2025-01-02 03:04:05" }

/-- A driver environment whose read raises exactly on tick 1. -/
def envReadFail1 : Env ℚ :=
  { envAllOk with readOk := fun t => decide (t ≠ 1) }

/-- A driver environment whose CSV upload fails (PNG upload succeeds). -/
def envCsvFail : Env ℚ := { envAllOk with upCsvOk := false }

/-- A fault-free driver environment over real voltages whose output table
is the sine table of `generate_output_points`. -/
noncomputable def envSin : Env ℝ :=
  { aopoints := sinTable, writeOk := fun _ => true, readOk := fun _ => true,
    readVal := fun _ => 0, clock := fun _ => 0, upPngOk := true,
    upCsvOk := true, csvStamp := "20250102_030405",
    pngStamp := "20250102_030405", dbStamp := "2025-01-02 03:04:05" }

/-- C2 counterexample: on the concrete run whose read raises on tick 1 of
3, the failing run's trace contains NO StopTask/ClearTask event at all, so
the cleanup path is not invoked (let alone exactly once) as part of the
failure handling. -/
theorem c2_counterexample :
    (runFinite envReadFail1 fmt3 roundTo3 3 (1 + 1 + 0)).app.errored = true ∧
    (runFinite envReadFail1 fmt3 roundTo3 3 (1 + 1 + 0)).events.countP
      isCleanupEv = 0 := by
  constructor <;> rfl

/-- C3 counterexample: the concrete fault-free finite-mode run with N = 1
terminates (timer stopped) with NO StopTask/ClearTask event in its trace,
so finite-mode termination does not invoke the task stop/release path. -/
theorem c3_counterexample :
    (runFinite envAllOk fmt3 roundTo3 1 (1 + 1 + 0)).app.timerActive = false ∧
    (runFinite envAllOk fmt3 roundTo3 1 (1 + 1 + 0)).events.countP
      isCleanupEv = 0 := by
  constructor <;> rfl

/-! ## Witnesses -/

theorem c1_witness :
    0 < 2 ∧
    ((runFinite envAllOk fmt3 roundTo3 2 (2 + 1 + 0)).events.countP isWriteEv
        = 2 ∧
      (runFinite envAllOk fmt3 roundTo3 2 (2 + 1 + 0)).events.countP isReadEv
        = 2 ∧
      (runFinite envAllOk fmt3 roundTo3 2 (2 + 1 + 0)).app.timerActive
        = false) :=
  ⟨by decide, c1_finite_run_exact_ticks envAllOk 2 0 (by decide)
    (fun t => rfl) (fun t => rfl)⟩

theorem c2_witness :
    1 < 3 ∧ 0 < 1 ∧
    ((runFinite envReadFail1 fmt3 roundTo3 3 (1 + 1 + 0)).app.errored
        = true ∧
      (runFinite envReadFail1 fmt3 roundTo3 3 (1 + 1 + 0)).app.timerActive
        = false ∧
      (runFinite envReadFail1 fmt3 roundTo3 3 (1 + 1 + 0)).events.filter wrEv
        = evSeg envReadFail1 0 1 ++
          [Event.writeAO (envReadFail1.aopoints (1 % 100))] ∧
      (runFinite envReadFail1 fmt3 roundTo3 3 (1 + 1 + 0)).events.countP
        isCleanupEv = 0 ∧
      (start_acquisition 1
          (runFinite envReadFail1 fmt3 roundTo3 3 (1 + 1 + 0))).events =
        (runFinite envReadFail1 fmt3 roundTo3 3 (1 + 1 + 0)).events ++
          [Event.stopTaskAO, Event.clearTaskAO, Event.stopTaskAI,
            Event.clearTaskAI, Event.timerStart]) :=
  ⟨by decide, by decide,
    c2_tick_failure_behaviour envReadFail1 3 1 0 1 (by decide) (by decide)
      (fun t ht => ⟨rfl, by interval_cases t; rfl⟩) rfl rfl⟩

theorem c3_witness :
    0 < 1 ∧
    (cstart_acquisition (cinitWorld ℚ)).app.aoTaskBound = true ∧
    ((stop_acquisition envAllOk fmt3
        (cstart_acquisition (cinitWorld ℚ))).events =
      (cstart_acquisition (cinitWorld ℚ)).events ++
        [Event.timerStop, Event.stopTaskAO, Event.clearTaskAO,
          Event.stopTaskAI, Event.clearTaskAI,
          Event.fileOut ("testdata/data_" ++ envAllOk.csvStamp ++ ".csv")] ∧
      (runFinite envAllOk fmt3 roundTo3 1 (1 + 1 + 0)).app.timerActive
        = false ∧
      (runFinite envAllOk fmt3 roundTo3 1 (1 + 1 + 0)).events.countP
        isCleanupEv = 0) :=
  ⟨by decide, rfl,
    c3_termination_cleanup envAllOk envAllOk 1 0 (by decide)
      (fun t => rfl) (fun t => rfl)
      (cstart_acquisition (cinitWorld ℚ)) rfl rfl⟩

theorem c4_witness :
    0 < 1 ∧ envCsvFail.upPngOk = true ∧ envCsvFail.upCsvOk = false ∧
    ((runFinite envCsvFail fmt3 roundTo3 1 (1 + 1 + 0)).app.errored = true ∧
      (runFinite envCsvFail fmt3 roundTo3 1 (1 + 1 + 0)).files =
        (runFinite { envCsvFail with upCsvOk := true } fmt3 roundTo3 1
          (1 + 1 + 0)).files ∧
      (runFinite envCsvFail fmt3 roundTo3 1 (1 + 1 + 0)).db =
        (runFinite { envCsvFail with upCsvOk := true } fmt3 roundTo3 1
          (1 + 1 + 0)).db ∧
      (runFinite envCsvFail fmt3 roundTo3 1 (1 + 1 + 0)).files =
        [(csvFileName envCsvFail, csvHeader ::
          csvRows fmt3 (dtSeg envCsvFail 0 1) (aoutSeg envCsvFail 0 1)
            (ainSeg envCsvFail 0 1))] ∧
      (csvRows fmt3 (dtSeg envCsvFail 0 1) (aoutSeg envCsvFail 0 1)
        (ainSeg envCsvFail 0 1)).length = 1) :=
  ⟨by decide, rfl, rfl,
    c4_upload_failure_isolated envCsvFail 1 0 (by decide)
      (fun t => rfl) (fun t => rfl) rfl rfl⟩

theorem c5_witness :
    0 < 1 ∧
    (((runFinite envAllOk fmt3 roundTo3 1 (1 + 1 + 0)).events.filter wrEv =
        evSeg envAllOk 0 1 ∧
      altWR ((runFinite envAllOk fmt3 roundTo3 1 (1 + 1 + 0)).events.filter
        wrEv) = true) ∧
    ((runCont envAllOk 0 2 (cstart_acquisition (cinitWorld ℚ))).events.filter
        wrEv = evSeg envAllOk 0 2 ∧
      altWR ((runCont envAllOk 0 2
        (cstart_acquisition (cinitWorld ℚ))).events.filter wrEv) = true)) :=
  ⟨by decide, c5_write_before_read envAllOk 1 2 0 (by decide)
    (fun t => rfl) (fun t => rfl)⟩

theorem c7_witness :
    0 < 2 ∧
    ((runFinite envAllOk fmt3 roundTo3 2 (2 + 1 + 0)).files =
      [(csvFileName envAllOk, csvHeader ::
        csvRows fmt3 (dtSeg envAllOk 0 2) (aoutSeg envAllOk 0 2)
          (ainSeg envAllOk 0 2))] ∧
    csvFileName envAllOk =
      "PyDAQmx2/testdata/data_" ++ envAllOk.csvStamp ++ ".csv" ∧
    csvHeader = "Time (s), AO (V), AI (V)" ∧
    (csvRows fmt3 (dtSeg envAllOk 0 2) (aoutSeg envAllOk 0 2)
      (ainSeg envAllOk 0 2)).length = 2 ∧
    ∀ r ∈ csvRows fmt3 (dtSeg envAllOk 0 2) (aoutSeg envAllOk 0 2)
        (ainSeg envAllOk 0 2),
      ∃ t o i, r = csvRow fmt3 t o i) :=
  ⟨by decide, c7_file_sink_format envAllOk 2 0 (by decide)
    (fun t => rfl) (fun t => rfl)⟩

theorem c9_witness :
    0 < 1 ∧ envSin.aopoints = sinTable ∧
    ∀ v : ℝ, Event.writeAO v ∈
        (runFinite envSin (fun _ => "") id 1 (1 + 1 + 0)).events →
      (∃ j, j < 100 ∧ v = sinTable j) ∧ 0 ≤ v ∧ v ≤ 5 :=
  ⟨by decide, rfl,
    c9_output_in_sine_table envSin 1 0 (by decide) rfl
      (fun t => rfl) (fun t => rfl)⟩

theorem c10_witness :
    0 < 2 ∧ 1 < 2 ∧
    ((∀ w : World ℚ, (start_acquisition 2 w).app.deltat = [] ∧
        (start_acquisition 2 w).app.aout = [] ∧
        (start_acquisition 2 w).app.ain = []) ∧
      ((runFinite envAllOk fmt3 roundTo3 2 (2 + 1 + 0)).app.deltat.length
          = 2 ∧
        (runFinite envAllOk fmt3 roundTo3 2 (2 + 1 + 0)).app.aout.length
          = 2 ∧
        (runFinite envAllOk fmt3 roundTo3 2 (2 + 1 + 0)).app.ain.length
          = 2) ∧
      ((runFinite envReadFail1 fmt3 roundTo3 2 (1 + 1 + 0)).app.aout.length
          = 1 + 1 ∧
        (runFinite envReadFail1 fmt3 roundTo3 2
          (1 + 1 + 0)).app.deltat.length = 1 ∧
        (runFinite envReadFail1 fmt3 roundTo3 2 (1 + 1 + 0)).app.ain.length
          = 1)) :=
  ⟨by decide, by decide,
    c10_series_lengths envAllOk envReadFail1 2 1 0 (by decide) (by decide)
      (fun t => rfl) (fun t => rfl) (fun t => rfl)
      (fun t ht => by interval_cases t; rfl) rfl⟩
